import Mathlib

/-!
Verification of the bpnet repository's SWAG accumulator callback
(`bpnet/swag_callback.py`) and of the modisco report orchestration
(`bpnet/cli/modisco.py`).

The embedding is shallow: Python lists become Lean lists, numpy scalars
become rationals (all tensor arithmetic in the source is elementwise, so a
tensor is modelled by one of its components), and filesystem effects become
explicit traces or finite maps. Each definition mirrors one Python function;
comments cite the source lines.
-/

/-- Three-list `zipWith`, mirroring Python's `zip(a, b, c)` inside a list
comprehension (truncates to the shortest list). -/
def zipWith3 (f : ℚ → ℚ → ℚ → ℚ) : List ℚ → List ℚ → List ℚ → List ℚ
  | x :: xs, y :: ys, z :: zs => f x y z :: zipWith3 f xs ys zs
  | _, _, _ => []

/-- State of `SWAGCallback` (`swag_callback.py`, lines 12-20).  The Python
attribute `output_prefix` is named `out_pre` here. -/
structure SWAGCallback where
  mean : List ℚ
  moments : List ℚ
  rank : Nat
  start : Nat
  out_pre : String
  cols : List (List ℚ)
  deriving Repr, DecidableEq

/-- `SWAGCallback.__init__` (lines 12-20): `self.mean = 2000*[0.]`,
`self.moments = 2000*[0.]`, `self.cols = []`. -/
def SWAGCallback.init (out_pre : String) (start rank : Nat) : SWAGCallback :=
  { mean := List.replicate 2000 0
    moments := List.replicate 2000 0
    rank := rank
    start := start
    out_pre := out_pre
    cols := [] }

/-- `SWAGCallback.on_epoch_end` (lines 22-28).  `w` is the snapshot
`self.model.get_weights()`.  When `epoch >= self.start` the running mean and
second moment are updated by list comprehensions over `zip`, and the deviation
column `curr - mean` (with the just-updated mean) is appended to `self.cols`;
the trailing trim `self.cols = self.cols[1:]` when `len(self.cols) > self.rank`
sits outside that `if`. -/
def SWAGCallback.on_epoch_end (st : SWAGCallback) (epoch : Nat) (w : List ℚ) :
    SWAGCallback :=
  let st1 :=
    if st.start ≤ epoch then
      let n : ℚ := ((epoch - st.start : Nat) : ℚ)
      let mean1 := List.zipWith (fun prev curr => (n * prev + curr) / (n + 1)) st.mean w
      let moments1 :=
        zipWith3 (fun prev _mean curr => (n * prev + curr ^ 2) / (n + 1)) st.moments mean1 w
      let cols1 := st.cols ++ [List.zipWith (fun mean curr => curr - mean) mean1 w]
      { st with mean := mean1, moments := moments1, cols := cols1 }
    else st
  if st1.rank < st1.cols.length then { st1 with cols := st1.cols.drop 1 } else st1

/-- Content of one serialized output file of `on_train_end`: `_mean.json` and
`_diag.json` hold one numeric sequence, `_cols.json` a sequence of them. -/
inductive FileData where
  | vec (v : List ℚ)
  | mat (m : List (List ℚ))
  deriving Repr, DecidableEq

/-- `SWAGCallback.on_train_end` (lines 30-34) as the ordered list of
`(file name, serialized content)` writes it performs: the running mean to
`output_prefix + '_mean.json'`, then `diag = [moment - mean**2 for moment,
mean in zip(self.moments, self.mean)]` to `'_diag.json'`, then `self.cols`
to `'_cols.json'`.  The method reads but never mutates the state. -/
def SWAGCallback.train_end_files (st : SWAGCallback) : List (String × FileData) :=
  let diag := List.zipWith (fun moment mean => moment - mean ^ 2) st.moments st.mean
  [(st.out_pre ++ "_mean.json", FileData.vec st.mean),
   (st.out_pre ++ "_diag.json", FileData.vec diag),
   (st.out_pre ++ "_cols.json", FileData.mat st.cols)]

/-- A serialized-output store, `file name -> content`.  `fs_write_all`
performs a list of writes in order, each overwriting any previous content
under the same name (as `json.dump(..., open(path, 'w+'))` does). -/
def fs_write_all (fs : String → Option FileData) :
    List (String × FileData) → String → Option FileData
  | [] => fs
  | (n, d) :: rest => fs_write_all (fun m => if m = n then some d else fs m) rest

/-- The same sequence of writes when each individual write may fail (the
directory not writable, ...): `ok` says which paths are writable.  The first
failing write stops the sequence and the raised failure propagates to the
caller, as an uncaught Python `IOError` does; earlier writes remain. -/
def write_seq (ok : String → Bool) (fs : String → Option FileData) :
    List (String × FileData) → Except String (String → Option FileData)
  | [] => Except.ok fs
  | (n, d) :: rest =>
      if ok n then write_seq ok (fun m => if m = n then some d else fs m) rest
      else Except.error n

/-- The error payload of an `Except`, `none` for success. -/
def errVal {ε α : Type} : Except ε α → Option ε
  | .error e => some e
  | .ok _ => none

/-- A file system for the report pipeline: regular files with their text
content, and the set of directories that exist. -/
structure FS where
  files : List (String × String)
  dirs : List String
  deriving Repr, DecidableEq

/-- The names of the files that exist. -/
def FS.names (fs : FS) : List String := fs.files.map Prod.fst

/-- The content of file `p`, when it exists. -/
def FS.read (fs : FS) (p : String) : Option String := fs.files.lookup p

/-- The directory part of a slash-separated path: everything before the last
`/` (Python `os.path.dirname`), over the path's character list. -/
def dirnameData (l : List Char) : List Char :=
  ((l.reverse.dropWhile (fun c => c != '/')).drop 1).reverse

/-- The directory part of a slash-separated path, as a string. -/
def dirname (p : String) : String := String.mk (dirnameData p.data)

/-- Python `open(p, 'a').close()`: raises `FileNotFoundError` (the
`Except.error`, carrying the offending path) when `p`'s parent directory
does not exist; otherwise creates `p` empty when it is missing and leaves it
untouched (content included) when it exists. -/
def FS.touch_a (fs : FS) (p : String) : Except String FS :=
  if dirname p ∈ fs.dirs then
    Except.ok (if p ∈ fs.names then fs else { fs with files := fs.files ++ [(p, "")] })
  else Except.error p

/-- Modelled from the spec: the step tracker `ConditionalRun` of
`bpnet.utils`, whose class body is not among the repository files here (only
its caller `modisco_report_all` is).  A tracker instance is bound to a job
name, an output directory and a `force` flag, plus the currently selected
step (`cmd`). -/
structure ConditionalRun where
  job_name : String
  output_dir : String
  force : Bool
  cmd : Option String
  deriving Repr, DecidableEq

/-- Modelled from the spec: `set_cmd(step_name)` selects the step to
query/mark next; pure, side-effect-free. -/
def ConditionalRun.set_cmd (cr : ConditionalRun) (c : String) : ConditionalRun :=
  { cr with cmd := some c }

/-- Modelled from the spec: the hidden marker directory
`<output_dir>/.<job_name>`. -/
def ConditionalRun.marker_dir (cr : ConditionalRun) : String :=
  cr.output_dir ++ "/." ++ cr.job_name

/-- Modelled from the spec: the marker path
`<output_dir>/.<job_name>/<step_name>.done` of the currently selected step. -/
def ConditionalRun.get_done_file (cr : ConditionalRun) : String :=
  cr.marker_dir ++ "/" ++ cr.cmd.getD "" ++ ".done"

/-- Modelled from the spec: `done()` returns `true` iff the marker for the
currently selected step exists AND `force` was not requested. -/
def ConditionalRun.done (cr : ConditionalRun) (fs : FS) : Bool :=
  decide (cr.get_done_file ∈ fs.names) && !cr.force

/-- Modelled from the spec: `write()` creates the marker for the currently
selected step, creating the missing parent directory; creating a marker that
already exists is a no-op. -/
def ConditionalRun.write (cr : ConditionalRun) (fs : FS) : FS :=
  { files :=
      if cr.get_done_file ∈ fs.names then fs.files
      else fs.files ++ [(cr.get_done_file, "")]
    dirs :=
      if cr.marker_dir ∈ fs.dirs then fs.dirs
      else fs.dirs ++ [cr.marker_dir] }

/-- `modisco_report_all` (`cli/modisco.py`, lines 718-854), abstracted to its
step-gating skeleton.  `patterns` is `mr.patterns()` of the opened modisco
result.  With zero patterns (lines 753-758) the function touches
`results.html`, then `seqlets/scored_regions.bed`, in the modisco directory
and returns at once; each `open(..., 'a')` raises `FileNotFoundError` when
its parent directory is missing, and an `Except.error` (carrying the raising
path and the file system at that moment, the first touch's effect included)
propagates to the caller as the uncaught Python exception does.  Otherwise
it builds the tracker `ConditionalRun("modisco_report_all", None,
modisco_dir, force=force)` and, for each step in source order, runs the step
and writes its marker only when `done()` is false
(`modisco_centroid_seqlet_matches` and `cwm_scan` only when
`scan_instances`).  Returns the file system and the list of executed steps
(each step's own artifact writes are outside this model). -/
def modisco_report_all (modisco_dir : String) (patterns : List String)
    (force scan_instances : Bool) (fs : FS) :
    Except (String × FS) (FS × List String) :=
  if patterns.length = 0 then
    match fs.touch_a (modisco_dir ++ "/results.html") with
    | .error e => Except.error (e, fs)
    | .ok fs1 =>
      match fs1.touch_a (modisco_dir ++ "/seqlets/scored_regions.bed") with
      | .error e => Except.error (e, fs1)
      | .ok fs2 => Except.ok (fs2, [])
  else Except.ok <|
    let cr : ConditionalRun :=
      { job_name := "modisco_report_all", output_dir := modisco_dir,
        force := force, cmd := none }
    let steps :=
      ["modisco_plot", "modisco_report", "modisco_table",
        "modisco_cluster_patterns", "modisco_enrich_patterns"] ++
      (if scan_instances then ["modisco_centroid_seqlet_matches", "cwm_scan"] else []) ++
      ["modisco2bed"]
    steps.foldl
      (fun acc name =>
        let cr1 := cr.set_cmd name
        if cr1.done acc.1 then acc else (cr1.write acc.1, acc.2 ++ [name]))
      (fs, [])

/-- Python `w.split(sep)` for a one-character separator, over the string's
character list (both separators `bpnet_modisco_run` splits on, `","` and
`"/"`, are one character). -/
def pySplit (sep : Char) : List Char → List (List Char)
  | [] => [[]]
  | c :: cs =>
    let r := pySplit sep cs
    if c = sep then [] :: r
    else
      match r with
      | [] => [[c]]
      | h :: t => (c :: h) :: t

/-- The errors the modelled slice of `bpnet_modisco_run` can raise. -/
inductive ModiscoError where
  /-- `raise ValueError(f"task {task} not found in tasks: {tasks}")`, line 247. -/
  | taskNotFound (task : String)
  /-- `task, head, head_summary = w.split("/")` unpacking fails, line 242. -/
  | badWildcard (w : String)
  /-- `assert '/' in contrib_wildcard`, line 187. -/
  | assertNoSlash
  deriving Repr, DecidableEq

/-- The side effects of the modelled slice of `bpnet_modisco_run`, in
program order.  File names fixed by `cli/modisco.py` are spelled out;
`file_log` (via `add_file_logging`) and `gin_config_log` (via
`log_gin_config`) stand for writes whose exact file names are decided in
`bpnet.utils` / `bpnet.cli.train`, outside the files here. -/
inductive Effect where
  | file_log (dir : String)
  | copy_config (src dst : String)
  | write_json_file (path : String)
  | gin_config_log (dir : String)
  | save_npy (path : String)
  | write_h5 (path : String)
  deriving Repr, DecidableEq

/-- The `subset_tasks` loop of `bpnet_modisco_run` (lines 240-250): for each
comma-separated wildcard `task/head/head_summary`, a task that is neither
`*` nor a known task raises `ValueError` at once (the `subset_tasks`
accumulator itself has no observable effect and is dropped). -/
def subset_tasks_check (tasks : List String) : List (List Char) → Except ModiscoError Unit
  | [] => Except.ok ()
  | w :: ws =>
    match pySplit '/' w with
    | [task, _head, _summary] =>
      if String.mk task = "*" then subset_tasks_check tasks ws
      else if String.mk task ∈ tasks then subset_tasks_check tasks ws
      else Except.error (.taskNotFound (String.mk task))
    | _ => Except.error (.badWildcard (String.mk w))

/-- `bpnet_modisco_run` (lines 159-328) up to and including the task check,
as the ordered trace of its file-writing effects paired with its outcome.
Side effects before the check, in source order: the log file (line 177), the
config copy when `--config` was given (line 204), the kwargs JSON
`modisco-run.kwargs.json` (lines 207-221), the gin-config log (line 231).
Only after the check succeeds are `modisco-run.subset-contrib-file.npy`
(line 286) and `modisco.h5` (line 98, via `modisco_run`) written.  The
`remove_exists` calls are no-ops on a fresh output directory and are not
modelled; loads of the contribution file are reads. -/
def bpnet_modisco_run_trace (output_dir contrib_wildcard : String)
    (tasks : List String) (config : Option String) :
    List Effect × Except ModiscoError Unit :=
  let log : List Effect := [.file_log output_dir]
  if contrib_wildcard.data.contains '/' = false then
    (log, Except.error .assertNoSlash)
  else
    let pre := log ++
      (match config with
       | some src => [.copy_config src (output_dir ++ "/modisco-run.input-config.gin")]
       | none => []) ++
      [.write_json_file (output_dir ++ "/modisco-run.kwargs.json"),
       .gin_config_log output_dir]
    match subset_tasks_check tasks (pySplit ',' contrib_wildcard.data) with
    | .error e => (pre, Except.error e)
    | .ok _ =>
      (pre ++ [.save_npy (output_dir ++ "/modisco-run.subset-contrib-file.npy"),
               .write_h5 (output_dir ++ "/modisco.h5")],
        Except.ok ())

/-- One training run driving the callback: fold `on_epoch_end` over a list of
`(epoch, weights)` pairs. -/
def run_epochs (st : SWAGCallback) (l : List (Nat × List ℚ)) : SWAGCallback :=
  l.foldl (fun s p => s.on_epoch_end p.1 p.2) st

theorem getD_zipWith (f : ℚ → ℚ → ℚ) (d : ℚ) :
    ∀ (xs ys : List ℚ) (i : Nat), i < xs.length → i < ys.length →
      (List.zipWith f xs ys).getD i d = f (xs.getD i d) (ys.getD i d)
  | [], _, i, h1, _ => absurd h1 (by simp)
  | _ :: _, [], i, _, h2 => absurd h2 (by simp)
  | x :: xs, y :: ys, 0, _, _ => by simp
  | x :: xs, y :: ys, i + 1, h1, h2 => by
      simpa using getD_zipWith f d xs ys i (by simpa using h1) (by simpa using h2)

theorem length_zipWith3 (g : ℚ → ℚ → ℚ → ℚ) :
    ∀ xs ys zs : List ℚ,
      (zipWith3 g xs ys zs).length = min xs.length (min ys.length zs.length)
  | [], ys, zs => by cases ys <;> cases zs <;> simp [zipWith3]
  | x :: xs, [], zs => by cases zs <;> simp [zipWith3]
  | x :: xs, y :: ys, [] => by simp [zipWith3]
  | x :: xs, y :: ys, z :: zs => by
      simp [zipWith3, length_zipWith3 g xs ys zs]
      omega

theorem getD_zipWith3 (g : ℚ → ℚ → ℚ → ℚ) (d : ℚ) :
    ∀ (xs ys zs : List ℚ) (i : Nat), i < xs.length → i < ys.length → i < zs.length →
      (zipWith3 g xs ys zs).getD i d = g (xs.getD i d) (ys.getD i d) (zs.getD i d)
  | [], _, _, i, h1, _, _ => absurd h1 (by simp)
  | _ :: _, [], _, i, _, h2, _ => absurd h2 (by simp)
  | _ :: _, _ :: _, [], i, _, _, h3 => absurd h3 (by simp)
  | x :: xs, y :: ys, z :: zs, 0, _, _, _ => by simp [zipWith3]
  | x :: xs, y :: ys, z :: zs, i + 1, h1, h2, h3 => by
      simpa [zipWith3] using
        getD_zipWith3 g d xs ys zs i (by simpa using h1) (by simpa using h2)
          (by simpa using h3)

theorem zipWith_replicate_take (f : ℚ → ℚ → ℚ) (a : ℚ) :
    ∀ (n : Nat) (l : List ℚ),
      List.zipWith f (List.replicate n a) l = (l.take n).map (f a)
  | 0, l => by simp
  | n + 1, [] => by simp
  | n + 1, x :: xs => by
      simp [List.replicate_succ, zipWith_replicate_take f a n xs]

theorem zipWith3_replicate_take (g : ℚ → ℚ → ℚ → ℚ) (a : ℚ) :
    ∀ (n : Nat) (ys zs : List ℚ),
      zipWith3 g (List.replicate n a) ys zs =
        (List.zipWith (fun y z => g a y z) ys zs).take n
  | 0, ys, zs => by cases ys <;> cases zs <;> simp [zipWith3]
  | n + 1, [], zs => by cases zs <;> simp [zipWith3, List.replicate_succ]
  | n + 1, y :: ys, [] => by simp [zipWith3, List.replicate_succ]
  | n + 1, y :: ys, z :: zs => by
      simp [List.replicate_succ, zipWith3, zipWith3_replicate_take g a n ys zs]

theorem SWAGCallback.on_epoch_end_start (st : SWAGCallback) (epoch : Nat) (w : List ℚ) :
    (st.on_epoch_end epoch w).start = st.start := by
  simp only [SWAGCallback.on_epoch_end]
  split <;> split <;> rfl

theorem SWAGCallback.on_epoch_end_rank (st : SWAGCallback) (epoch : Nat) (w : List ℚ) :
    (st.on_epoch_end epoch w).rank = st.rank := by
  simp only [SWAGCallback.on_epoch_end]
  split <;> split <;> rfl

theorem SWAGCallback.on_epoch_end_mean_acc (st : SWAGCallback) (epoch : Nat) (w : List ℚ)
    (h : st.start ≤ epoch) :
    (st.on_epoch_end epoch w).mean =
      List.zipWith
        (fun prev curr =>
          (((epoch - st.start : Nat) : ℚ) * prev + curr) /
            (((epoch - st.start : Nat) : ℚ) + 1))
        st.mean w := by
  simp only [SWAGCallback.on_epoch_end, h, if_true]
  split <;> rfl

theorem SWAGCallback.on_epoch_end_moments_acc (st : SWAGCallback) (epoch : Nat) (w : List ℚ)
    (h : st.start ≤ epoch) :
    (st.on_epoch_end epoch w).moments =
      zipWith3
        (fun prev _mean curr =>
          (((epoch - st.start : Nat) : ℚ) * prev + curr ^ 2) /
            (((epoch - st.start : Nat) : ℚ) + 1))
        st.moments
        (List.zipWith
          (fun prev curr =>
            (((epoch - st.start : Nat) : ℚ) * prev + curr) /
              (((epoch - st.start : Nat) : ℚ) + 1))
          st.mean w)
        w := by
  simp only [SWAGCallback.on_epoch_end, h, if_true]
  split <;> rfl

theorem SWAGCallback.on_epoch_end_cols_acc (st : SWAGCallback) (epoch : Nat) (w : List ℚ)
    (h : st.start ≤ epoch) :
    (st.on_epoch_end epoch w).cols =
      (let dev :=
        List.zipWith (fun mean curr => curr - mean)
          (List.zipWith
            (fun prev curr =>
              (((epoch - st.start : Nat) : ℚ) * prev + curr) /
                (((epoch - st.start : Nat) : ℚ) + 1))
            st.mean w)
          w
       if st.rank < st.cols.length + 1 then (st.cols ++ [dev]).drop 1
       else st.cols ++ [dev]) := by
  simp only [SWAGCallback.on_epoch_end, h, if_true, List.length_append, List.length_singleton]
  split <;> rfl

theorem SWAGCallback.on_epoch_end_mean_warmup (st : SWAGCallback) (epoch : Nat) (w : List ℚ)
    (h : epoch < st.start) :
    (st.on_epoch_end epoch w).mean = st.mean := by
  simp only [SWAGCallback.on_epoch_end, if_neg (by omega : ¬ st.start ≤ epoch)]
  split <;> rfl

theorem SWAGCallback.on_epoch_end_moments_warmup (st : SWAGCallback) (epoch : Nat) (w : List ℚ)
    (h : epoch < st.start) :
    (st.on_epoch_end epoch w).moments = st.moments := by
  simp only [SWAGCallback.on_epoch_end, if_neg (by omega : ¬ st.start ≤ epoch)]
  split <;> rfl

theorem SWAGCallback.on_epoch_end_cols_warmup (st : SWAGCallback) (epoch : Nat) (w : List ℚ)
    (h : epoch < st.start) :
    (st.on_epoch_end epoch w).cols =
      (if st.rank < st.cols.length then st.cols.drop 1 else st.cols) := by
  simp only [SWAGCallback.on_epoch_end, if_neg (by omega : ¬ st.start ≤ epoch)]
  split <;> rfl

set_option maxRecDepth 40000 in
/-- C1: for every call of `on_epoch_end` with `epoch >= start`, letting
`n = epoch - start`, each component of the running mean becomes
`(n * old_mean + parameters) / (n + 1)` and each component of the running
second moment `(n * old_moment + parameters^2) / (n + 1)`; in particular,
for `start = 0` and the successive scalar snapshots `1, 3, 5`, after three
calls the mean is `3`, the second moment `35/3`, and the diagonal
`moment - mean^2` is `8/3`. -/
theorem swag_on_epoch_end_incremental_update (st : SWAGCallback) (epoch : Nat)
    (w : List ℚ) (i : Nat) :
    (st.start ≤ epoch → i < st.mean.length → i < st.moments.length → i < w.length →
      (st.on_epoch_end epoch w).mean.getD i 0 =
          (((epoch - st.start : Nat) : ℚ) * st.mean.getD i 0 + w.getD i 0) /
            (((epoch - st.start : Nat) : ℚ) + 1) ∧
        (st.on_epoch_end epoch w).moments.getD i 0 =
          (((epoch - st.start : Nat) : ℚ) * st.moments.getD i 0 + w.getD i 0 ^ 2) /
            (((epoch - st.start : Nat) : ℚ) + 1)) ∧
    ((((SWAGCallback.init "swag" 0 139).on_epoch_end 0 [1]).on_epoch_end 1 [3]).on_epoch_end 2
        [5]).mean = [3] ∧
    ((((SWAGCallback.init "swag" 0 139).on_epoch_end 0 [1]).on_epoch_end 1 [3]).on_epoch_end 2
        [5]).moments = [35 / 3] ∧
    List.zipWith (fun moment mean => moment - mean ^ 2)
        ((((SWAGCallback.init "swag" 0 139).on_epoch_end 0 [1]).on_epoch_end 1 [3]).on_epoch_end
            2 [5]).moments
        ((((SWAGCallback.init "swag" 0 139).on_epoch_end 0 [1]).on_epoch_end 1 [3]).on_epoch_end
            2 [5]).mean = [8 / 3] := by
  refine ⟨fun h h1 h2 h3 => ⟨?_, ?_⟩, ?_, ?_, ?_⟩
  · rw [SWAGCallback.on_epoch_end_mean_acc st epoch w h, getD_zipWith _ _ _ _ _ h1 h3]
  · rw [SWAGCallback.on_epoch_end_moments_acc st epoch w h,
      getD_zipWith3 _ _ _ _ _ _ h2 (by simp; omega) h3]
  all_goals
    simp [SWAGCallback.on_epoch_end, SWAGCallback.init, zipWith_replicate_take,
      zipWith3_replicate_take, zipWith3]
    norm_num

set_option maxRecDepth 40000 in
/-- C4: for every epoch strictly below `start`, `on_epoch_end` leaves the
running mean and second moment unchanged; in particular, for `start = 5`,
calls with epochs `0..4` (any weights) leave both at their initial
all-zero values. -/
theorem swag_warmup_noop (st : SWAGCallback) (epoch : Nat) (w : List ℚ)
    (p : String) (r : Nat) (w0 w1 w2 w3 w4 : List ℚ) :
    (epoch < st.start →
      (st.on_epoch_end epoch w).mean = st.mean ∧
        (st.on_epoch_end epoch w).moments = st.moments) ∧
    ((((((SWAGCallback.init p 5 r).on_epoch_end 0 w0).on_epoch_end 1 w1).on_epoch_end 2
        w2).on_epoch_end 3 w3).on_epoch_end 4 w4).mean = List.replicate 2000 0 ∧
    ((((((SWAGCallback.init p 5 r).on_epoch_end 0 w0).on_epoch_end 1 w1).on_epoch_end 2
        w2).on_epoch_end 3 w3).on_epoch_end 4 w4).moments = List.replicate 2000 0 := by
  refine ⟨fun h => ⟨SWAGCallback.on_epoch_end_mean_warmup st epoch w h,
    SWAGCallback.on_epoch_end_moments_warmup st epoch w h⟩, ?_, ?_⟩
  all_goals simp [SWAGCallback.on_epoch_end, SWAGCallback.init]

theorem swag_cols_step_le (st : SWAGCallback) (epoch : Nat) (w : List ℚ)
    (h : st.cols.length ≤ st.rank) :
    (st.on_epoch_end epoch w).cols.length ≤ st.rank := by
  by_cases hs : st.start ≤ epoch
  · rw [SWAGCallback.on_epoch_end_cols_acc st epoch w hs]
    dsimp only
    split
    · simp only [List.length_drop, List.length_append, List.length_singleton]
      omega
    · simp only [List.length_append, List.length_singleton]
      omega
  · rw [SWAGCallback.on_epoch_end_cols_warmup st epoch w (by omega)]
    split
    · simp only [List.length_drop]
      omega
    · exact h

theorem run_epochs_cols_le :
    ∀ (l : List (Nat × List ℚ)) (st : SWAGCallback),
      st.cols.length ≤ st.rank → (run_epochs st l).cols.length ≤ st.rank
  | [], st, h => h
  | (e, w) :: l, st, h => by
      have h2 := SWAGCallback.on_epoch_end_rank st e w
      have h3 := run_epochs_cols_le l (st.on_epoch_end e w)
        (by rw [h2]; exact swag_cols_step_le st e w h)
      rw [h2] at h3
      simpa [run_epochs] using h3

set_option maxRecDepth 40000 in
set_option maxHeartbeats 1000000 in
/-- C3: after every call of `on_epoch_end` the deviation buffer `cols` holds
at most `rank` entries (for any run started from `__init__`); in an
accumulating call the buffer is extended by the snapshot
`weights - mean` (with the mean as updated by that same call) and, when over
capacity, the oldest entry is dropped first; with `rank = 2`, after 5
accumulating epochs the buffer holds exactly the two most recently appended
deviation snapshots in insertion order. -/
theorem swag_cols_bounded_fifo (st : SWAGCallback) (epoch : Nat) (w : List ℚ)
    (p : String) (s r : Nat) (l : List (Nat × List ℚ)) :
    (run_epochs (SWAGCallback.init p s r) l).cols.length ≤ r ∧
    (st.start ≤ epoch →
      (st.on_epoch_end epoch w).cols =
        (let dev :=
          List.zipWith (fun mean curr => curr - mean) (st.on_epoch_end epoch w).mean w
         if st.rank < st.cols.length + 1 then (st.cols ++ [dev]).drop 1
         else st.cols ++ [dev])) ∧
    (let t4 :=
      ((((SWAGCallback.init p 0 2).on_epoch_end 0 [1]).on_epoch_end 1 [2]).on_epoch_end 2
          [3]).on_epoch_end 3 [4]
     let t5 := t4.on_epoch_end 4 [5]
     t5.cols =
        [List.zipWith (fun mean curr => curr - mean) t4.mean [4],
         List.zipWith (fun mean curr => curr - mean) t5.mean [5]] ∧
       t5.cols = [[3 / 2], [2]] ∧ t5.cols.length = 2) := by
  refine ⟨run_epochs_cols_le l _ (by simp [SWAGCallback.init]), fun h => ?_, ?_⟩
  · rw [SWAGCallback.on_epoch_end_cols_acc st epoch w h,
      SWAGCallback.on_epoch_end_mean_acc st epoch w h]
  · simp [SWAGCallback.on_epoch_end, SWAGCallback.init, zipWith_replicate_take,
      zipWith3_replicate_take, zipWith3]
    norm_num

set_option maxRecDepth 40000 in
/-- C9: `__init__` fixes `mean` and `moments` as 2000 zeros and
`on_epoch_end` updates them through `zip` with the incoming snapshot, so
after the first accumulating epoch (epoch = start) both have length
`min 2000 (number of parameter tensors)`; the mean is the snapshot truncated
to its first 2000 entries, and it equals the full snapshot exactly when the
snapshot has at most 2000 entries. -/
theorem swag_init_zip_truncates (p : String) (s r : Nat) (w : List ℚ) :
    ((SWAGCallback.init p s r).on_epoch_end s w).mean.length = min 2000 w.length ∧
    ((SWAGCallback.init p s r).on_epoch_end s w).moments.length = min 2000 w.length ∧
    ((SWAGCallback.init p s r).on_epoch_end s w).mean = w.take 2000 ∧
    (((SWAGCallback.init p s r).on_epoch_end s w).mean = w ↔ w.length ≤ 2000) := by
  have hs : (SWAGCallback.init p s r).start ≤ s := le_refl s
  have hmean : ((SWAGCallback.init p s r).on_epoch_end s w).mean = w.take 2000 := by
    rw [SWAGCallback.on_epoch_end_mean_acc _ s w hs]
    simp only [SWAGCallback.init, Nat.sub_self, Nat.cast_zero, zipWith_replicate_take]
    simp
  have hmom : ((SWAGCallback.init p s r).on_epoch_end s w).moments.length =
      min 2000 w.length := by
    rw [SWAGCallback.on_epoch_end_moments_acc _ s w hs]
    simp only [SWAGCallback.init, zipWith3_replicate_take, List.length_take,
      List.length_zipWith, List.length_replicate]
    omega
  refine ⟨by simp [hmean, List.length_take], hmom, hmean, ?_⟩
  rw [hmean]
  constructor
  · intro h
    have := congrArg List.length h
    simp [List.length_take] at this
    omega
  · exact fun h => List.take_of_length_le h

/-- C5: `on_train_end` computes the diagonal elementwise as
`moments[i] - mean[i]^2` and writes exactly three files, named
`output_prefix` + `_mean` / `_diag` / `_cols` + the fixed `.json` extension,
holding the serialized running mean, diagonal and full deviation buffer; a
second call re-serializes the same state (the method reads but never mutates
it), leaving the store unchanged. -/
theorem swag_train_end_serializes (st : SWAGCallback) (fs : String → Option FileData) :
    st.train_end_files.length = 3 ∧
    st.train_end_files.map Prod.fst =
      [st.out_pre ++ "_mean.json", st.out_pre ++ "_diag.json", st.out_pre ++ "_cols.json"] ∧
    st.train_end_files =
      [(st.out_pre ++ "_mean.json", FileData.vec st.mean),
       (st.out_pre ++ "_diag.json",
        FileData.vec (List.zipWith (fun moment mean => moment - mean ^ 2) st.moments st.mean)),
       (st.out_pre ++ "_cols.json", FileData.mat st.cols)] ∧
    (∀ i, i < st.moments.length → i < st.mean.length →
      (List.zipWith (fun moment mean => moment - mean ^ 2) st.moments st.mean).getD i 0 =
        st.moments.getD i 0 - st.mean.getD i 0 ^ 2) ∧
    fs_write_all (fs_write_all fs st.train_end_files) st.train_end_files =
      fs_write_all fs st.train_end_files := by
  refine ⟨rfl, rfl, rfl, fun i h1 h2 => getD_zipWith _ _ _ _ _ h1 h2, ?_⟩
  funext m
  simp only [SWAGCallback.train_end_files, fs_write_all]
  by_cases h3 : m = st.out_pre ++ "_cols.json" <;>
    by_cases h2 : m = st.out_pre ++ "_diag.json" <;>
      by_cases h1 : m = st.out_pre ++ "_mean.json" <;>
        simp [h1, h2, h3]

/-- C7: when the three output writes of `on_train_end` are fallible and run
in source order, the whole operation succeeds exactly when all three writes
succeed, and on success all three files are present in the resulting store;
otherwise the failure is surfaced to the caller (the `Except.error` outcome,
as an uncaught Python `IOError`), so no partial subset of the three files is
ever left behind silently. -/
theorem swag_train_end_all_or_error (ok : String → Bool) (st : SWAGCallback)
    (fs : String → Option FileData) :
    ((write_seq ok fs st.train_end_files).isOk = true ↔
      (ok (st.out_pre ++ "_mean.json") = true ∧ ok (st.out_pre ++ "_diag.json") = true ∧
        ok (st.out_pre ++ "_cols.json") = true)) ∧
    (∀ fs2, write_seq ok fs st.train_end_files = Except.ok fs2 →
      (fs2 (st.out_pre ++ "_mean.json")).isSome = true ∧
        (fs2 (st.out_pre ++ "_diag.json")).isSome = true ∧
        (fs2 (st.out_pre ++ "_cols.json")).isSome = true) := by
  constructor
  · by_cases h1 : ok (st.out_pre ++ "_mean.json") <;>
      by_cases h2 : ok (st.out_pre ++ "_diag.json") <;>
        by_cases h3 : ok (st.out_pre ++ "_cols.json") <;>
          simp [SWAGCallback.train_end_files, write_seq, h1, h2, h3, Except.isOk,
            Except.toBool]
  · intro fs2 hfs2
    by_cases h1 : ok (st.out_pre ++ "_mean.json") <;>
      by_cases h2 : ok (st.out_pre ++ "_diag.json") <;>
        by_cases h3 : ok (st.out_pre ++ "_cols.json") <;>
          simp [SWAGCallback.train_end_files, write_seq, h1, h2, h3] at hfs2
    subst hfs2
    refine ⟨?_, ?_, ?_⟩ <;> dsimp only <;> (repeat' split) <;> simp_all

theorem ConditionalRun.write_names (cr : ConditionalRun) (fs : FS) :
    (cr.write fs).names =
      if cr.get_done_file ∈ fs.names then fs.names
      else fs.names ++ [cr.get_done_file] := by
  show (if cr.get_done_file ∈ fs.names then fs.files
      else fs.files ++ [(cr.get_done_file, "")]).map Prod.fst = _
  split <;> simp [FS.names]

theorem ConditionalRun.write_mem_names (cr : ConditionalRun) (fs : FS) :
    cr.get_done_file ∈ (cr.write fs).names := by
  rw [ConditionalRun.write_names]
  split
  · assumption
  · exact List.mem_append_right _ (List.mem_singleton_self _)

theorem ConditionalRun.write_mem_dirs (cr : ConditionalRun) (fs : FS) :
    cr.marker_dir ∈ (cr.write fs).dirs := by
  by_cases h : cr.marker_dir ∈ fs.dirs <;> simp [ConditionalRun.write, h]

theorem ConditionalRun.write_idem (cr : ConditionalRun) (fs : FS) :
    cr.write (cr.write fs) = cr.write fs := by
  have h1 : (cr.write (cr.write fs)).files = (cr.write fs).files :=
    if_pos (cr.write_mem_names fs)
  have h2 : (cr.write (cr.write fs)).dirs = (cr.write fs).dirs :=
    if_pos (cr.write_mem_dirs fs)
  calc cr.write (cr.write fs)
      = ⟨(cr.write (cr.write fs)).files, (cr.write (cr.write fs)).dirs⟩ := rfl
    _ = ⟨(cr.write fs).files, (cr.write fs).dirs⟩ := by rw [h1, h2]
    _ = cr.write fs := rfl

/-- C2: `done()` returns true exactly when the marker for the currently
selected step exists and `force` was not requested; with `force = true` it
returns false whatever the marker state; and `write()` never deletes a
previously written marker (while `done()` itself, a pure query, touches
nothing). -/
theorem conditional_run_done_iff (fs : FS) (cr : ConditionalRun) :
    (cr.done fs = true ↔ (cr.get_done_file ∈ fs.names ∧ cr.force = false)) ∧
    (cr.force = true → cr.done fs = false) ∧
    (∀ p, p ∈ fs.names → p ∈ (cr.write fs).names) := by
  refine ⟨?_, fun hf => ?_, fun p hp => ?_⟩
  · simp [ConditionalRun.done]
  · simp [ConditionalRun.done, hf]
  · rw [ConditionalRun.write_names]
    split
    · exact hp
    · exact List.mem_append_left _ hp

/-- C6: `write()` on an already-marked step is a no-op (and, being total, it
raises nothing), so after writing twice `done()` still returns true in a
non-forced instance; `write()` also creates the marker's parent
directory. -/
theorem conditional_run_write_idempotent (fs : FS) (cr : ConditionalRun) (c : String) :
    (cr.set_cmd c).write ((cr.set_cmd c).write fs) = (cr.set_cmd c).write fs ∧
    (cr.force = false →
      (cr.set_cmd c).done ((cr.set_cmd c).write ((cr.set_cmd c).write fs)) = true) ∧
    (cr.set_cmd c).marker_dir ∈ ((cr.set_cmd c).write fs).dirs := by
  refine ⟨ConditionalRun.write_idem _ fs, fun hforce => ?_,
    ConditionalRun.write_mem_dirs _ fs⟩
  rw [ConditionalRun.write_idem _ fs]
  have hforce1 : (cr.set_cmd c).force = false := hforce
  simp [ConditionalRun.done, hforce1, ConditionalRun.write_mem_names (cr.set_cmd c) fs]

theorem subset_tasks_check_error (tasks : List String) :
    ∀ (ws : List (List Char)) (w t hd sm : List Char),
      w ∈ ws → pySplit '/' w = [t, hd, sm] → String.mk t ≠ "*" → String.mk t ∉ tasks →
      (errVal (subset_tasks_check tasks ws)).isSome = true
  | [], w, t, hd, sm, hw, _, _, _ => absurd hw (List.not_mem_nil w)
  | w0 :: ws, w, t, hd, sm, hw, hsplit, hstar, htask => by
    rcases List.mem_cons.mp hw with h | h
    · subst h
      simp [subset_tasks_check, hsplit, hstar, htask, errVal]
    · have ih := subset_tasks_check_error tasks ws w t hd sm h hsplit hstar htask
      simp only [subset_tasks_check]
      split
      · split
        · exact ih
        · split
          · exact ih
          · simp [errVal]
      · simp [errVal]

/-- C8 counterexample: with known tasks `["Oct4"]` and
`contrib_wildcard = "Sox2/profile/wn"`, `bpnet_modisco_run` raises the
task-not-found `ValueError`, yet the kwargs JSON
`modisco-run.kwargs.json` was already written before the error — so the run
does not abort "before any side effect". -/
theorem bpnet_modisco_run_effect_before_error_cex :
    errVal (bpnet_modisco_run_trace "out" "Sox2/profile/wn" ["Oct4"] none).2 =
        some (ModiscoError.taskNotFound "Sox2") ∧
      Effect.write_json_file "out/modisco-run.kwargs.json" ∈
        (bpnet_modisco_run_trace "out" "Sox2/profile/wn" ["Oct4"] none).1 := by decide

/-- C8 (amended): a `contrib_wildcard` entry naming a task that is neither
`*` nor a known task makes `bpnet_modisco_run` raise the configuration
`ValueError` during the subset-task computation, aborting before the subset
filter file `modisco-run.subset-contrib-file.npy` or `modisco.h5` is
written — but not before every side effect: whenever the initial assert
passes, the kwargs JSON `modisco-run.kwargs.json` has already been written
when the error is raised. -/
theorem bpnet_modisco_run_bad_task_aborts (output_dir contrib_wildcard : String)
    (tasks : List String) (config : Option String) (w t hd sm : List Char)
    (hw : w ∈ pySplit ',' contrib_wildcard.data)
    (hsplit : pySplit '/' w = [t, hd, sm])
    (hstar : String.mk t ≠ "*") (htask : String.mk t ∉ tasks) :
    (errVal (bpnet_modisco_run_trace output_dir contrib_wildcard tasks config).2).isSome =
        true ∧
      Effect.save_npy (output_dir ++ "/modisco-run.subset-contrib-file.npy") ∉
        (bpnet_modisco_run_trace output_dir contrib_wildcard tasks config).1 ∧
      Effect.write_h5 (output_dir ++ "/modisco.h5") ∉
        (bpnet_modisco_run_trace output_dir contrib_wildcard tasks config).1 ∧
      (contrib_wildcard.data.contains '/' = true →
        Effect.write_json_file (output_dir ++ "/modisco-run.kwargs.json") ∈
          (bpnet_modisco_run_trace output_dir contrib_wildcard tasks config).1) := by
  by_cases hsl : contrib_wildcard.data.contains '/' = true
  · have herr := subset_tasks_check_error tasks (pySplit ',' contrib_wildcard.data)
      w t hd sm hw hsplit hstar htask
    cases hc : subset_tasks_check tasks (pySplit ',' contrib_wildcard.data) with
    | ok u => rw [hc] at herr; simp [errVal] at herr
    | error e =>
      simp only [bpnet_modisco_run_trace, hsl, Bool.true_eq_false, if_false, hc]
      cases config <;> simp [errVal]
  · have hmem : ¬ ('/' ∈ contrib_wildcard.data) := by simpa using hsl
    simp [bpnet_modisco_run_trace, errVal, hmem]

/-- Witness for the amended C8 statement at a concrete input. -/
theorem bpnet_modisco_run_bad_task_aborts_witness :
    (errVal (bpnet_modisco_run_trace "out" "Sox2/profile/wn" ["Oct4"] none).2).isSome =
        true ∧
      Effect.save_npy ("out" ++ "/modisco-run.subset-contrib-file.npy") ∉
        (bpnet_modisco_run_trace "out" "Sox2/profile/wn" ["Oct4"] none).1 ∧
      Effect.write_h5 ("out" ++ "/modisco.h5") ∉
        (bpnet_modisco_run_trace "out" "Sox2/profile/wn" ["Oct4"] none).1 ∧
      ("Sox2/profile/wn".data.contains '/' = true →
        Effect.write_json_file ("out" ++ "/modisco-run.kwargs.json") ∈
          (bpnet_modisco_run_trace "out" "Sox2/profile/wn" ["Oct4"] none).1) :=
  bpnet_modisco_run_bad_task_aborts "out" "Sox2/profile/wn" ["Oct4"] none
    "Sox2/profile/wn".data "Sox2".data "profile".data "wn".data
    (by decide) (by decide) (by decide) (by decide)



theorem string_append_left_ne (a b c : String) (h : b.data ≠ c.data) :
    a ++ b ≠ a ++ c := by
  intro he
  exact h (List.append_cancel_left (congrArg String.data he))

theorem dropWhile_append_sat (p : Char → Bool) :
    ∀ (l1 l2 : List Char), (∀ c ∈ l1, p c = true) →
      List.dropWhile p (l1 ++ l2) = List.dropWhile p l2
  | [], l2, _ => rfl
  | c :: l1, l2, h => by
    have hc : p c = true := h c (List.mem_cons_self c l1)
    simpa [List.dropWhile_cons, hc] using
      dropWhile_append_sat p l1 l2 (fun d hd => h d (List.mem_cons_of_mem c hd))

theorem dirnameData_append (d tail : List Char) (h : ('/' : Char) ∉ tail) :
    dirnameData (d ++ '/' :: tail) = d := by
  unfold dirnameData
  rw [List.reverse_append, List.reverse_cons, List.append_assoc, List.singleton_append,
    dropWhile_append_sat _ tail.reverse ('/' :: d.reverse) ?_]
  · simp [List.dropWhile_cons]
  · intro c hc
    have : c ≠ '/' := fun he => h (he ▸ List.mem_reverse.mp hc)
    simpa using this

theorem dirname_concat (d sfx : String) (tail : List Char)
    (hd : sfx.data = '/' :: tail) (h : ('/' : Char) ∉ tail) :
    dirname (d ++ sfx) = d := by
  show String.mk (dirnameData (d.data ++ sfx.data)) = d
  rw [hd, dirnameData_append d.data tail h]

theorem dirname_results_html (dir : String) : dirname (dir ++ "/results.html") = dir :=
  dirname_concat dir "/results.html" "results.html".data (by decide) (by decide)

theorem dirname_scored_bed (dir : String) :
    dirname (dir ++ "/seqlets/scored_regions.bed") = dir ++ "/seqlets" := by
  have h : dir ++ "/seqlets/scored_regions.bed" =
      (dir ++ "/seqlets") ++ "/scored_regions.bed" := by
    rw [String.append_assoc]
    rfl
  rw [h]
  exact dirname_concat (dir ++ "/seqlets") "/scored_regions.bed"
    "scored_regions.bed".data (by decide) (by decide)

theorem FS.touch_a_creates (fs : FS) (p : String) (hd : dirname p ∈ fs.dirs)
    (hn : p ∉ fs.names) :
    fs.touch_a p = Except.ok { fs with files := fs.files ++ [(p, "")] } := by
  simp only [FS.touch_a]
  rw [if_pos hd, if_neg hn]

theorem FS.touch_a_raises (fs : FS) (p : String) (hd : dirname p ∉ fs.dirs) :
    fs.touch_a p = Except.error p := by
  simp only [FS.touch_a]
  rw [if_neg hd]

theorem modisco_report_all_nil (dir : String) (force scan : Bool) (fs : FS) :
    modisco_report_all dir [] force scan fs =
      (match fs.touch_a (dir ++ "/results.html") with
       | .error e => Except.error (e, fs)
       | .ok fs1 =>
         match fs1.touch_a (dir ++ "/seqlets/scored_regions.bed") with
         | .error e => Except.error (e, fs1)
         | .ok fs2 => Except.ok (fs2, [])) := rfl

/-- C10 counterexample: on a fresh modisco directory `"md"` (the directory
itself exists, `seqlets/` does not — nothing creates `seqlets/` before the
zero-pattern return; only `modisco2bed`, line 836, ever does), the
zero-pattern call raises `FileNotFoundError` at
`open(modisco_dir / 'seqlets/scored_regions.bed', 'a')` (line 757) instead
of creating that file and returning: only `results.html` was created when
the exception escapes. -/
theorem modisco_report_all_zero_patterns_cex :
    errVal (modisco_report_all "md" [] false false ⟨[], ["md"]⟩) =
      some ("md/seqlets/scored_regions.bed", FS.mk [("md/results.html", "")] ["md"]) := by
  decide

/-- C10 (amended): with zero patterns, `modisco_report_all` touches
`results.html` and then `seqlets/scored_regions.bed` and returns at once —
executing no report step and writing no step marker in either outcome.  When
the modisco directory exists but `seqlets/` does not (no earlier code
creates it), the second `open(..., 'a')` raises `FileNotFoundError`: the run
ends with the error, `results.html` created empty and nothing else changed.
Only when `seqlets/` already exists (and neither file does) are both files
created empty and the call returns normally with no step executed. -/
theorem modisco_report_all_zero_patterns_raises (dir : String) (force scan : Bool)
    (fs : FS) :
    (dir ∈ fs.dirs → (dir ++ "/results.html") ∉ fs.names →
      (dir ++ "/seqlets") ∉ fs.dirs →
      modisco_report_all dir [] force scan fs =
        Except.error (dir ++ "/seqlets/scored_regions.bed",
          { fs with files := fs.files ++ [(dir ++ "/results.html", "")] })) ∧
    (dir ∈ fs.dirs → (dir ++ "/seqlets") ∈ fs.dirs →
      (dir ++ "/results.html") ∉ fs.names →
      (dir ++ "/seqlets/scored_regions.bed") ∉ fs.names →
      modisco_report_all dir [] force scan fs =
        Except.ok
          ({ fs with files := fs.files ++
              [(dir ++ "/results.html", ""), (dir ++ "/seqlets/scored_regions.bed", "")] },
            [])) := by
  constructor
  · intro h0 h1 h2
    have e1 := FS.touch_a_creates fs (dir ++ "/results.html")
      (by rw [dirname_results_html]; exact h0) h1
    have e2 := FS.touch_a_raises
      { fs with files := fs.files ++ [(dir ++ "/results.html", "")] }
      (dir ++ "/seqlets/scored_regions.bed") (by rw [dirname_scored_bed]; exact h2)
    simp only [modisco_report_all_nil, e1, e2]
  · intro h0 hseq h1 h2
    have hne : (dir ++ "/seqlets/scored_regions.bed") ≠ (dir ++ "/results.html") :=
      string_append_left_ne dir _ _ (by decide)
    have e1 := FS.touch_a_creates fs (dir ++ "/results.html")
      (by rw [dirname_results_html]; exact h0) h1
    have hbn : (dir ++ "/seqlets/scored_regions.bed") ∉
        FS.names { fs with files := fs.files ++ [(dir ++ "/results.html", "")] } := by
      simp only [FS.names, List.map_append, List.map_cons, List.map_nil,
        List.mem_append, List.mem_singleton]
      push_neg
      exact ⟨by simpa [FS.names] using h2, hne⟩
    have e2 := FS.touch_a_creates
      { fs with files := fs.files ++ [(dir ++ "/results.html", "")] }
      (dir ++ "/seqlets/scored_regions.bed") (by rw [dirname_scored_bed]; exact hseq) hbn
    simp only [modisco_report_all_nil, e1, e2, List.append_assoc]
    rfl
